import Mathlib

/-!
A verification development for the dembrandt design-token extraction engine
(`src/lib/extractors.js`).  The JavaScript extraction pipeline is shallowly
embedded: strings are `String`/`List Char`, integer arithmetic is `Nat`,
JavaScript's float comparisons on exact decimal constants are modelled over
`ℚ`, and the CIE76 colour distance (genuinely real-valued in the source) is
modelled over `ℝ`.  DOM access (element enumeration, computed styles,
selector counting) is the engine's external capability surface, so extractor
inputs are records of the values the DOM queries would return.
-/

/-! ## Basic string helpers -/

/-- JavaScript `String.prototype.toLowerCase` restricted to the ASCII
characters the extractor actually meets. -/
def lowerString (s : String) : String :=
  ⟨s.data.map Char.toLower⟩

/-- Occurrence of `needle` as a contiguous block of `cs`. -/
def occursIn (needle : List Char) : List Char → Bool
  | [] => needle.isEmpty
  | c :: rest => needle.isPrefixOf (c :: rest) || occursIn needle rest

/-- JavaScript substring test `haystack.includes(needle)`. -/
def strContains (haystack needle : String) : Bool :=
  occursIn needle.data haystack.data

/-- The whitespace class `\s` of a JavaScript regular expression (ASCII part). -/
def jsWhitespace (c : Char) : Bool :=
  c = ' ' || c = '\t' || c = '\n' || c = '\r' || c = '\x0b' || c = '\x0c'

/-- Decimal value of an all-digit capture group, as in JavaScript
`parseInt(group)` applied to a string of decimal digits. -/
def parseIntDec (cs : List Char) : Nat :=
  cs.foldl (fun n c => n * 10 + (c.toNat - '0'.toNat)) 0

/-- Hex rendering of a number, as in JavaScript `n.toString(16)`
(lowercase digits). -/
def natToHexChars (n : Nat) : List Char :=
  Nat.toDigits 16 n

/-- JavaScript `s.padStart(2, "0")`. -/
def pad2 (cs : List Char) : List Char :=
  if cs.length ≥ 2 then cs else List.replicate (2 - cs.length) '0' ++ cs

/-! ## `normalizeColor` (extractors.js lines 798-807)

The source matches `color` against the regular expression
`/rgba?\((\d+),\s*(\d+),\s*(\d+)/` (note: case-sensitive, unanchored, the
alpha channel is never captured) and, on a match, renders the three captured
decimal channel values as a six-digit lowercase hex string; otherwise the
input is returned lowercased. -/

/-- Match the body `(\d+),\s*(\d+),\s*(\d+)` directly after the opening
parenthesis. -/
def matchChannels (cs : List Char) : Option (List Char × List Char × List Char) :=
  let d1 := cs.takeWhile Char.isDigit
  if d1.isEmpty then none else
  match cs.drop d1.length with
  | ',' :: r3 =>
    let r4 := r3.dropWhile jsWhitespace
    let d2 := r4.takeWhile Char.isDigit
    if d2.isEmpty then none else
    match r4.drop d2.length with
    | ',' :: r5 =>
      let r6 := r5.dropWhile jsWhitespace
      let d3 := r6.takeWhile Char.isDigit
      if d3.isEmpty then none else some (d1, d2, d3)
    | _ => none
  | _ => none

/-- Attempt `/rgba?\((\d+),\s*(\d+),\s*(\d+)/` at the start of `cs`. -/
def matchRgbAt (cs : List Char) : Option (List Char × List Char × List Char) :=
  match cs with
  | 'r' :: 'g' :: 'b' :: 'a' :: '(' :: rest => matchChannels rest
  | 'r' :: 'g' :: 'b' :: '(' :: rest => matchChannels rest
  | _ => none

/-- Leftmost match of the rgb pattern anywhere in the string, as an
unanchored JavaScript regex search. -/
def findRgb (cs : List Char) : Option (List Char × List Char × List Char) :=
  match cs with
  | [] => none
  | _ :: rest =>
    match matchRgbAt cs with
    | some r => some r
    | none => findRgb rest

/-- `normalizeColor` from the source: hex-render a matched rgb/rgba triple,
otherwise pass the input through lowercased. -/
def normalizeColor (color : String) : String :=
  match findRgb color.data with
  | some (d1, d2, d3) =>
    ⟨'#' :: (pad2 (natToHexChars (parseIntDec d1)) ++
             pad2 (natToHexChars (parseIntDec d2)) ++
             pad2 (natToHexChars (parseIntDec d3)))⟩
  | none => lowerString color

/-- The string an rgba colour literal `rgba(r, g, b, a)` renders to, with the
three channels and the alpha given as raw character lists. -/
def mkRgba (r g b alpha : List Char) : String :=
  ⟨"rgba(".data ++ r ++ (", ".data ++ g ++ (", ".data ++ b ++ (", ".data ++ alpha ++ [')'])))⟩

/-! ## `extractColorsFromValue` (extractors.js lines 966-980)

The source splits a multi-value colour string with the global regex
`/(#[0-9a-f]{3,8}|rgba?\([^)]+\)|hsla?\([^)]+\)|[a-z]+)/gi` and filters out
transparent literals and matches of length ≤ 2. -/

/-- `[0-9a-f]` under the `i` flag. -/
def isHexDigitChar (c : Char) : Bool :=
  c.isDigit || ('a' ≤ c && c ≤ 'f') || ('A' ≤ c && c ≤ 'F')

/-- `[a-z]` under the `i` flag. -/
def isAsciiLetter (c : Char) : Bool :=
  ('a' ≤ c && c ≤ 'z') || ('A' ≤ c && c ≤ 'Z')

/-- The alternative `rgba?\([^)]+\)` / `hsla?\([^)]+\)` after its keyword:
an opening parenthesis, a nonempty run of non-`)` characters, and `)`. -/
def matchParenTail (pre : List Char) (cs : List Char) : Option (List Char) :=
  match cs with
  | '(' :: body =>
    let inner := body.takeWhile (fun c => c ≠ ')')
    if inner.isEmpty then none
    else
      match body.drop inner.length with
      | ')' :: _ => some (pre ++ '(' :: (inner ++ [')']))
      | _ => none
  | _ => none

/-- One attempt of the colour-token regex at the start of `cs`, trying the
four alternatives in source order. -/
def matchColorTokenAt (cs : List Char) : Option (List Char) :=
  match cs with
  | '#' :: rest =>
    let run := rest.takeWhile isHexDigitChar
    if run.length ≥ 3 then some ('#' :: run.take 8) else none
  | _ =>
    let rgbAttempt :=
      match cs with
      | 'r' :: 'g' :: 'b' :: 'a' :: rest => matchParenTail ['r', 'g', 'b', 'a'] rest
      | 'r' :: 'g' :: 'b' :: rest => matchParenTail ['r', 'g', 'b'] rest
      | _ => none
    match rgbAttempt with
    | some t => some t
    | none =>
      let hslAttempt :=
        match cs with
        | 'h' :: 's' :: 'l' :: 'a' :: rest => matchParenTail ['h', 's', 'l', 'a'] rest
        | 'h' :: 's' :: 'l' :: rest => matchParenTail ['h', 's', 'l'] rest
        | _ => none
      match hslAttempt with
      | some t => some t
      | none =>
        let run := cs.takeWhile isAsciiLetter
        if run.isEmpty then none else some run

/-- Global scan: leftmost matches, resuming after each match; the fuel is the
string length (every step consumes at least one character). -/
def scanColorTokens : Nat → List Char → List (List Char)
  | 0, _ => []
  | _, [] => []
  | fuel + 1, c :: cs =>
    match matchColorTokenAt (c :: cs) with
    | some tok => tok :: scanColorTokens fuel ((c :: cs).drop tok.length)
    | none => scanColorTokens fuel cs

/-- `extractColorsFromValue` from the source. -/
def extractColorsFromValue (colorValue : String) : List String :=
  ((scanColorTokens colorValue.data.length colorValue.data).map
      (fun t => (⟨t⟩ : String))).filter
    (fun c =>
      c != "transparent" && c != "rgba(0, 0, 0, 0)" && c != "rgba(0,0,0,0)" &&
        c.length > 2)

/-! ## Element walk and scoring (extractors.js lines 906-1021) -/

/-- The computed-style and attribute values the colour scorer reads from one
DOM element; DOM access itself is the engine's external capability. -/
structure DomElement where
  className : String
  idAttr : String
  dataTrackingLinkid : String
  dataCta : String
  dataComponent : String
  tagName : String
  display : String
  visibility : String
  opacity : String
  backgroundColor : String
  textColor : String
  borderColor : String
deriving DecidableEq

/-- The context string built from class names, id, data attributes and tag
name, lowercased. -/
def contextOf (el : DomElement) : String :=
  lowerString (el.className ++ " " ++ el.idAttr ++ " " ++ el.dataTrackingLinkid ++ " " ++
    el.dataCta ++ " " ++ el.dataComponent ++ " " ++ el.tagName)

/-- The fixed keyword → weight table. -/
def contextScores : List (String × Nat) :=
  [("logo", 5), ("brand", 5), ("primary", 4), ("cta", 4), ("hero", 3),
   ("button", 3), ("link", 2), ("header", 2), ("nav", 1)]

/-- Per-element semantic score: baseline 1, raised to the best keyword
weight, forced to at least 25 for button/cta-like elements with a
non-trivial background colour. -/
def computeScore (el : DomElement) : Nat :=
  let context := contextOf el
  let base := contextScores.foldl
    (fun s kw => if strContains context kw.1 then max s kw.2 else s) 1
  let bg := el.backgroundColor
  if (strContains context "button" || strContains context "btn" ||
        strContains context "cta") &&
      bg != "" && bg != "rgba(0, 0, 0, 0)" && bg != "transparent" &&
      bg != "rgb(255, 255, 255)" && bg != "rgb(0, 0, 0)" &&
      bg != "rgb(239, 239, 239)" then
    max base 25
  else base

/-- Hidden elements are skipped by the walk. -/
def isHiddenElement (el : DomElement) : Bool :=
  el.display == "none" || el.visibility == "hidden" || el.opacity == "0"

/-- Accumulated data for one normalized colour. -/
structure ColorData where
  original : String
  count : Nat
  score : Nat
deriving DecidableEq

/-- Insertion-ordered string-keyed association list, the model of a
JavaScript `Map`: `get` finds the first binding, `set` updates in place or
appends. -/
def alistGet {β : Type} : List (String × β) → String → Option β
  | [], _ => none
  | (k, v) :: rest, key => if k = key then some v else alistGet rest key

/-- `Map.set`: replace in place, or append a fresh key at the end. -/
def alistSet {β : Type} : List (String × β) → String → β → List (String × β)
  | [], key, v => [(key, v)]
  | (k, v') :: rest, key, v =>
    if k = key then (key, v) :: rest else (k, v') :: alistSet rest key v

/-- The colour accumulation map. -/
abbrev ColorMap := List (String × ColorData)

/-- Accumulate one colour token at a given element score (extractors.js
lines 989-1009); transparent literals are skipped, the first-seen original
representation is kept. -/
def addColor (score : Nat) (m : ColorMap) (color : String) : ColorMap :=
  if color != "rgba(0, 0, 0, 0)" && color != "transparent" then
    let normalized := normalizeColor color
    let existing := (alistGet m normalized).getD ⟨color, 0, 0⟩
    alistSet m normalized ⟨existing.original, existing.count + 1, existing.score + score⟩
  else m

/-- All colour tokens of one element: background, text and border colours. -/
def elementColors (el : DomElement) : List String :=
  extractColorsFromValue el.backgroundColor ++ extractColorsFromValue el.textColor ++
    extractColorsFromValue el.borderColor

/-- Walk one element (extractors.js lines 922-1021; the semantic-colour side
channel is not modelled, no claim concerns it). -/
def processElement (m : ColorMap) (el : DomElement) : ColorMap :=
  if isHiddenElement el then m
  else (elementColors el).foldl (addColor (computeScore el)) m

/-- Walk all elements of the page. -/
def processElements (els : List DomElement) : ColorMap :=
  els.foldl processElement []

/-! ## Palette filtering and confidence (extractors.js lines 1023-1146) -/

/-- `Math.max(3, Math.floor(totalElements * 0.01))`. -/
def paletteThreshold (totalElements : Nat) : Nat :=
  max 3 (totalElements / 100)

/-- `isStructuralColor` from the source: transparent literals are always
structural; otherwise a colour is structural when used on more than 40% of
all elements while its accumulated score stays below 1.2 times its count.
The source's float comparisons on exact decimal constants are modelled
over `ℚ`. -/
def isStructuralColor (d : ColorData) (totalElements : Nat) : Bool :=
  if d.original = "rgba(0, 0, 0, 0)" ∨ d.original = "transparent" then true
  else if ((d.count : ℚ) / (totalElements : ℚ)) * 100 > 40 ∧
      (d.score : ℚ) < (d.count : ℚ) * 1.2 then true
  else false

/-- A finalized palette entry (source-label tracking is omitted; no claim
concerns it). -/
structure PaletteEntry where
  color : String
  normalized : String
  count : Nat
  confidence : String
deriving DecidableEq

/-- Confidence is a pure function of the accumulated score. -/
def confidenceOfScore (score : Nat) : String :=
  if score > 20 then "high" else if score > 5 then "medium" else "low"

def mkPaletteEntry (k : String) (d : ColorData) : PaletteEntry :=
  ⟨d.original, k, d.count, confidenceOfScore d.score⟩

/-- The palette filter: drop colours below the occurrence threshold and
structural colours. -/
def survivesPaletteFilter (threshold totalElements : Nat) (d : ColorData) : Bool :=
  if d.count < threshold then false
  else if isStructuralColor d totalElements then false
  else true

/-- Stable insertion step for a descending sort by a count projection,
modelling the stable ECMAScript `sort((a, b) => b.count - a.count)`. -/
def insertByCountDesc {α : Type} (countOf : α → Nat) (e : α) : List α → List α
  | [] => [e]
  | y :: ys =>
    if countOf e ≥ countOf y then e :: y :: ys else y :: insertByCountDesc countOf e ys

/-- Stable descending sort by a count projection. -/
def sortByCountDesc {α : Type} (countOf : α → Nat) : List α → List α
  | [] => []
  | x :: xs => insertByCountDesc countOf x (sortByCountDesc countOf xs)

/-- Filter, map to entries and sort by count descending. -/
def buildPalette (m : ColorMap) (totalElements : Nat) : List PaletteEntry :=
  sortByCountDesc (fun e => e.count)
    ((m.filter (fun p =>
        survivesPaletteFilter (paletteThreshold totalElements) totalElements p.2)).map
      (fun p => mkPaletteEntry p.1 p.2))

/-! ## `deltaE` (extractors.js lines 1049-1124)

CIE76: sRGB → linear RGB → XYZ (D65) → LAB, Euclidean distance.  The source
computes with floats; the model uses `ℝ`.  The identity, symmetry and
sentinel properties below hold independently of the rounding of the
transcendental steps. -/

def hexDigitVal (c : Char) : Nat :=
  if c.isDigit then c.toNat - '0'.toNat
  else if 'a' ≤ c && c ≤ 'f' then c.toNat - 'a'.toNat + 10
  else if 'A' ≤ c && c ≤ 'F' then c.toNat - 'A'.toNat + 10
  else 0

/-- `hexToRgb` from the source: requires a leading `#` followed by exactly
six hex digits (either case); anything else yields `null`. -/
def hexToRgb (hex : String) : Option (Nat × Nat × Nat) :=
  match hex.data with
  | '#' :: c1 :: c2 :: c3 :: c4 :: c5 :: c6 :: [] =>
    if isHexDigitChar c1 && isHexDigitChar c2 && isHexDigitChar c3 &&
        isHexDigitChar c4 && isHexDigitChar c5 && isHexDigitChar c6 then
      some (hexDigitVal c1 * 16 + hexDigitVal c2,
            hexDigitVal c3 * 16 + hexDigitVal c4,
            hexDigitVal c5 * 16 + hexDigitVal c6)
    else none
  | _ => none

noncomputable def gammaCorrect (v : ℝ) : ℝ :=
  if v > 0.04045 then ((v + 0.055) / 1.055) ^ (2.4 : ℝ) else v / 12.92

noncomputable def rgbToXyz (r g b : ℕ) : ℝ × ℝ × ℝ :=
  let r' := gammaCorrect ((r : ℝ) / 255)
  let g' := gammaCorrect ((g : ℝ) / 255)
  let b' := gammaCorrect ((b : ℝ) / 255)
  (100 * (r' * 0.4124564 + g' * 0.3575761 + b' * 0.1804375),
   100 * (r' * 0.2126729 + g' * 0.7151522 + b' * 0.0721750),
   100 * (r' * 0.0193339 + g' * 0.1191920 + b' * 0.9503041))

noncomputable def labF (t : ℝ) : ℝ :=
  if t > 0.008856 then t ^ ((1 : ℝ) / 3) else 7.787 * t + 16 / 116

noncomputable def xyzToLab (x y z : ℝ) : ℝ × ℝ × ℝ :=
  let fx := labF (x / 95.047)
  let fy := labF (y / 100.000)
  let fz := labF (z / 108.883)
  (116 * fy - 16, 500 * (fx - fy), 200 * (fy - fz))

noncomputable def labOfRgb (r g b : ℕ) : ℝ × ℝ × ℝ :=
  let xyz := rgbToXyz r g b
  xyzToLab xyz.1 xyz.2.1 xyz.2.2

/-- `deltaE` from the source: Euclidean LAB distance, or the sentinel 999
when either argument is not a parseable six-digit hex string. -/
noncomputable def deltaE (hex1 hex2 : String) : ℝ :=
  match hexToRgb hex1, hexToRgb hex2 with
  | some (r1, g1, b1), some (r2, g2, b2) =>
    let lab1 := labOfRgb r1 g1 b1
    let lab2 := labOfRgb r2 g2 b2
    let dL := lab1.1 - lab2.1
    let dA := lab1.2.1 - lab2.2.1
    let dB := lab1.2.2 - lab2.2.2
    Real.sqrt (dL * dL + dA * dA + dB * dB)
  | _, _ => 999

/-! ## Perceptual deduplication (extractors.js lines 1148-1172) -/

/-- The entry kept for one similarity cluster:
`similar.sort((a, b) => b.count - a.count)[0]` with `similar` seeded by the
cluster head. -/
def bestOfCluster (x : PaletteEntry) (similar : List PaletteEntry) : PaletteEntry :=
  match sortByCountDesc (fun e => e.count) (x :: similar) with
  | [] => x
  | y :: _ => y

open Classical in
/-- Greedy perceptual clustering: in count order, each unmerged entry
absorbs all later unmerged entries at distance below 15 and the
highest-count member of the cluster is kept. -/
noncomputable def perceptualDedup : List PaletteEntry → List PaletteEntry
  | [] => []
  | x :: rest =>
    bestOfCluster x (rest.filter (fun y => decide (deltaE x.normalized y.normalized < 15))) ::
      perceptualDedup (rest.filter (fun y => !decide (deltaE x.normalized y.normalized < 15)))
termination_by l => l.length
decreasing_by
  simp only [List.length_cons]
  exact Nat.lt_succ_of_le (List.length_filter_le _ _)

/-- The palette produced by one `extractColors` pass over a page. -/
noncomputable def extractPalette (els : List DomElement) : List PaletteEntry :=
  perceptualDedup (buildPalette (processElements els) els.length)

/-! ## Palette merges in `extractBranding`

Hover/focus observations (lines 447-469) are merged by comparing the raw
observed colour string against the stored entries' `color` field; dark-mode
(lines 509-523) and mobile (lines 552-562) palettes are merged by exact
equality of the `normalized` field.  (The per-entry source labels the
merges attach are omitted; no claim concerns them.) -/

/-- Dark-mode/mobile merge: push entries whose normalized hex is not
exactly present in the growing palette. -/
def mergeByNormalized (base extra : List PaletteEntry) : List PaletteEntry :=
  extra.foldl
    (fun acc dc =>
      if acc.any (fun e => e.normalized == dc.normalized) then acc else acc ++ [dc])
    base

/-- The inline renormalization of a probed hover/focus colour
(lines 452-459); the source duplicates the `normalizeColor` logic here. -/
def hoverNormalize (color : String) : String :=
  match findRgb color.data with
  | some (d1, d2, d3) =>
    ⟨'#' :: (pad2 (natToHexChars (parseIntDec d1)) ++
             pad2 (natToHexChars (parseIntDec d2)) ++
             pad2 (natToHexChars (parseIntDec d3)))⟩
  | none => lowerString color

/-- Hover/focus merge: a probed colour is pushed as a fresh medium-confidence
entry unless its raw string equals some stored entry's `color` field. -/
def mergeHoverFocus (palette : List PaletteEntry) (observed : List String) : List PaletteEntry :=
  observed.foldl
    (fun acc color =>
      if !(acc.any (fun c => c.color == color)) && color != "" then
        acc ++ [⟨color, hoverNormalize color, 1, "medium"⟩]
      else acc)
    palette

/-! ## Geometry extractors: confidence bucketing

`extractBorderRadius` (line 1446) and `extractBorders` (line 1535) bucket by
`count > 10 → "high"`, `count > 3 → "medium"`, else `"low"`;
`extractShadows` (line 1561) buckets by `count > 5 → "high"`,
`count > 2 → "medium"`, else `"low"`; `extractSpacing` (lines 1387-1403)
attaches no confidence at all. -/

def borderRadiusConfidence (count : Nat) : String :=
  if count > 10 then "high" else if count > 3 then "medium" else "low"

def borderComboConfidence (count : Nat) : String :=
  if count > 10 then "high" else if count > 3 then "medium" else "low"

def shadowConfidence (count : Nat) : String :=
  if count > 5 then "high" else if count > 2 then "medium" else "low"

/-- Modelled from the spec: the claimed uniform rule
"count >10 → high, >3 → medium, else low" shared by all four geometry
extractors. -/
def specUniformConfidence (count : Nat) : String :=
  if count > 10 then "high" else if count > 3 then "medium" else "low"

structure RadiusValue where
  value : String
  count : Nat
  elements : List String
  confidence : String
deriving DecidableEq

structure BorderCombo where
  width : String
  style : String
  color : String
  count : Nat
  elements : List String
  confidence : String
deriving DecidableEq

structure ShadowEntry where
  shadow : String
  count : Nat
  confidence : String
deriving DecidableEq

/-- The mapping stage of `extractBorderRadius` (lines 1441-1448) on the
accumulated frequency map (the numeric re-sort for presentation is not
modelled; no claim concerns it). -/
def processRadiusValues (radii : List (String × Nat × List String)) : List RadiusValue :=
  radii.map (fun p => ⟨p.1, p.2.1, p.2.2.take 5, borderRadiusConfidence p.2.1⟩)

/-- The mapping stage of `extractBorders` (lines 1528-1537). -/
def processBorderCombos (combos : List ((String × String × String) × Nat × List String)) :
    List BorderCombo :=
  sortByCountDesc (fun e => e.count)
    (combos.map (fun p =>
      ⟨p.1.1, p.1.2.1, p.1.2.2, p.2.1, p.2.2.take 5, borderComboConfidence p.2.1⟩))

/-- The mapping stage of `extractShadows` (lines 1557-1563). -/
def processShadows (shadows : List (String × Nat)) : List ShadowEntry :=
  sortByCountDesc (fun e => e.count)
    (shadows.map (fun p => ⟨p.1, p.2, shadowConfidence p.2⟩))

/-! ## Link style extraction (extractors.js lines 1860-1961)

Links are keyed by normalized default text colour.  On a repeated colour,
the stored default decoration is upgraded only while it is still empty or
`none` (lines 1949-1957); the hover-rule stylesheet scan is best-effort DOM
access and is not modelled. -/

structure LinkObs where
  color : String
  textDecoration : String
  fontWeight : String
deriving DecidableEq

structure LinkRec where
  color : String
  textDecoration : String
  fontWeight : String
  defaultColor : String
  defaultTextDecoration : String
deriving DecidableEq

abbrev LinkMap := List (String × LinkRec)

def processLink (m : LinkMap) (l : LinkObs) : LinkMap :=
  let key := normalizeColor l.color
  match alistGet m key with
  | none => alistSet m key ⟨l.color, l.textDecoration, l.fontWeight, l.color, l.textDecoration⟩
  | some ex =>
    if (ex.defaultTextDecoration = "" ∨ ex.defaultTextDecoration = "none") ∧
        (l.textDecoration ≠ "" ∧ l.textDecoration ≠ "none") then
      alistSet m key {ex with defaultTextDecoration := l.textDecoration}
    else m

def extractLinkStyles (links : List LinkObs) : List LinkRec :=
  ((links.foldl processLink []).map Prod.snd).take 8

/-! ## `detectFrameworks` (extractors.js lines 2184-2486)

Each primitive DOM signal the detector reads (a regex test over the page
HTML, a `countMatches(selector)` count, a `hasResource(pattern)` test, a
body class/attribute check) is one field of `PageFacts`; the decision logic
over those signals is embedded rule by rule in source order. -/

structure PageFacts where
  htmlArbitraryValues : Bool := false
  htmlStateModifiers : Bool := false
  resTailwind : Bool := false
  containerCount : Nat := 0
  rowCount : Nat := 0
  colCount : Nat := 0
  htmlButtonVariants : Bool := false
  resBootstrap : Bool := false
  muiCount : Nat := 0
  chakraCount : Nat := 0
  antCount : Nat := 0
  vuetifySpecificCount : Nat := 0
  bodyThemeLight : Bool := false
  bodyThemeDark : Bool := false
  vApplicationCount : Nat := 0
  polarisCount : Nat := 0
  radixCount : Nat := 0
  daisySpecificCount : Nat := 0
  bodyDataTheme : Bool := false
  foundationGridCount : Nat := 0
  foundationButtonCount : Nat := 0
  resFoundation : Bool := false
  dataFoundationCount : Nat := 0
  bulmaColumnsCount : Nat := 0
  bulmaColumnCount : Nat := 0
  htmlBulmaButtons : Bool := false
  resBulma : Bool := false
  semanticCount : Nat := 0
  resSemantic : Bool := false
  uikitCount : Nat := 0
  resUikit : Bool := false
  htmlShadcnClasses : Bool := false
  dataSlotStateCount : Nat := 0
  headlessCount : Nat := 0
  primeCount : Nat := 0
  mantineCount : Nat := 0
  carbonCount : Nat := 0
  fluentCount : Nat := 0
  quasarCount : Nat := 0
  bodyQApp : Bool := false
  elementPlusCount : Nat := 0
deriving DecidableEq

structure Framework where
  name : String
  confidence : String
  evidence : String
deriving DecidableEq

/-- Tailwind evidence list (lines 2206-2221). -/
def tailwindEvidence (f : PageFacts) : List String :=
  (if f.htmlArbitraryValues then ["arbitrary values (e.g., top-[117px])"] else []) ++
  (if f.htmlStateModifiers then ["responsive/state modifiers"] else []) ++
  (if f.resTailwind then ["stylesheet"] else [])

/-- Bootstrap evidence list (lines 2232-2251). -/
def bootstrapEvidence (f : PageFacts) : List String :=
  (if 0 < f.containerCount ∧ 0 < f.rowCount ∧ 0 < f.colCount then
    ["grid system (container + row + col)"] else []) ++
  (if f.htmlButtonVariants then ["button variants"] else []) ++
  (if f.resBootstrap then ["stylesheet"] else [])

/-- Foundation evidence list (lines 2338-2348). -/
def foundationEvidence (f : PageFacts) : List String :=
  (if 0 < f.foundationGridCount ∨ 0 < f.foundationButtonCount then
    ["grid/button system"] else []) ++
  (if f.resFoundation then ["stylesheet"] else [])

/-- Bulma evidence list (lines 2359-2373). -/
def bulmaEvidence (f : PageFacts) : List String :=
  (if 0 < f.bulmaColumnsCount ∧ 2 < f.bulmaColumnCount then ["columns system"] else []) ++
  (if f.htmlBulmaButtons then ["button modifiers"] else []) ++
  (if f.resBulma then ["stylesheet"] else [])

/-- The full rule list in source order.  The `.join(", ")` of an evidence
array is `String.intercalate ", "`; Foundation's
`foundationEvidence.join(", ") || "data attributes"` falls back on the
empty string. -/
def detectFrameworks (f : PageFacts) : List Framework :=
  (if 2 ≤ (tailwindEvidence f).length then
    [⟨"Tailwind CSS", "high", String.intercalate ", " (tailwindEvidence f)⟩] else []) ++
  (if 2 ≤ (bootstrapEvidence f).length then
    [⟨"Bootstrap", "high", String.intercalate ", " (bootstrapEvidence f)⟩] else []) ++
  (if 3 < f.muiCount then
    [⟨"Material UI (MUI)", "high", toString f.muiCount ++ " MUI components"⟩] else []) ++
  (if 3 < f.chakraCount then
    [⟨"Chakra UI", "high", toString f.chakraCount ++ " Chakra components"⟩] else []) ++
  (if 3 < f.antCount then
    [⟨"Ant Design", "high", toString f.antCount ++ " Ant components"⟩] else []) ++
  (if (8 < f.vuetifySpecificCount ∧ 0 < f.vApplicationCount) ∨
      ((f.bodyThemeLight ∨ f.bodyThemeDark) ∧ 5 < f.vuetifySpecificCount) then
    [⟨"Vuetify", "high", toString f.vuetifySpecificCount ++ " Vuetify components"⟩] else []) ++
  (if 2 < f.polarisCount then
    [⟨"Shopify Polaris", "high", toString f.polarisCount ++ " Polaris components"⟩] else []) ++
  (if 5 < f.radixCount then
    [⟨"Radix UI", "high", toString f.radixCount ++ " Radix primitives"⟩] else []) ++
  (if 2 ≤ (tailwindEvidence f).length ∧ (3 < f.daisySpecificCount ∨ f.bodyDataTheme) then
    [⟨"DaisyUI", "high",
      "Tailwind + " ++ toString f.daisySpecificCount ++ " DaisyUI components"⟩] else []) ++
  (if 1 ≤ (foundationEvidence f).length ∨ 0 < f.dataFoundationCount then
    [⟨"Foundation", "high",
      if (foundationEvidence f).isEmpty then "data attributes"
      else String.intercalate ", " (foundationEvidence f)⟩] else []) ++
  (if 2 ≤ (bulmaEvidence f).length then
    [⟨"Bulma", "high", String.intercalate ", " (bulmaEvidence f)⟩] else []) ++
  (if 3 < f.semanticCount ∨ f.resSemantic then
    [⟨"Semantic UI", "high", toString f.semanticCount ++ " .ui components"⟩] else []) ++
  (if 3 < f.uikitCount ∨ f.resUikit then
    [⟨"UIkit", "high", toString f.uikitCount ++ " uk- components"⟩] else []) ++
  (if 2 ≤ (tailwindEvidence f).length ∧ 3 < f.radixCount ∧
      (f.htmlShadcnClasses ∨ 5 < f.dataSlotStateCount) then
    [⟨"shadcn/ui", "medium", "Tailwind + Radix + component patterns"⟩] else []) ++
  (if 2 ≤ (tailwindEvidence f).length ∧ 2 < f.headlessCount then
    [⟨"Headless UI", "high",
      toString f.headlessCount ++ " headless components with Tailwind"⟩] else []) ++
  (if 5 < f.primeCount then
    [⟨"PrimeReact/Vue/NG", "high", toString f.primeCount ++ " Prime components"⟩] else []) ++
  (if 3 < f.mantineCount then
    [⟨"Mantine", "high", toString f.mantineCount ++ " Mantine components"⟩] else []) ++
  (if 3 < f.carbonCount then
    [⟨"Carbon Design System", "high", toString f.carbonCount ++ " Carbon components"⟩] else []) ++
  (if 5 < f.fluentCount then
    [⟨"Fluent UI", "high", toString f.fluentCount ++ " Fluent components"⟩] else []) ++
  (if 5 < f.quasarCount ∨ f.bodyQApp then
    [⟨"Quasar", "high", toString f.quasarCount ++ " q- components"⟩] else []) ++
  (if 5 < f.elementPlusCount then
    [⟨"Element Plus/UI", "high", toString f.elementPlusCount ++ " el- components"⟩] else [])


/-! ## Concrete scenario inputs -/

/-- The spec's scenario button: class `"btn btn-primary"`, background
`rgb(99, 91, 255)`, visible, no text or border colour contribution. -/
def scenarioButton : DomElement :=
  ⟨"btn btn-primary", "", "", "", "", "BUTTON", "inline-block", "visible", "1",
   "rgb(99, 91, 255)", "rgba(0, 0, 0, 0)", "rgba(0, 0, 0, 0)"⟩

/-- A visible filler element contributing no colour observation. -/
def scenarioPlain : DomElement :=
  ⟨"", "", "", "", "", "DIV", "block", "visible", "1",
   "rgba(0, 0, 0, 0)", "rgba(0, 0, 0, 0)", "rgba(0, 0, 0, 0)"⟩

/-- A page exposing exactly one Foundation signal (one `.grid-x/.grid-y/.cell`
match) and nothing else. -/
def foundationOnlyFacts : PageFacts :=
  { foundationGridCount := 1 }

/-- An accumulated colour map with two perceptually close colours, the more
frequent one first. -/
def closePairMap : ColorMap :=
  [("#000000", ⟨"rgb(0, 0, 0)", 20, 30⟩), ("#020202", ⟨"rgb(2, 2, 2)", 15, 30⟩)]

/-! ## Supporting lemmas: lowercasing and the rgb matcher -/

theorem char_toLower_idem (c : Char) : c.toLower.toLower = c.toLower := by
  unfold Char.toLower
  simp only []
  by_cases h : c.toNat ≥ 65 ∧ c.toNat ≤ 90
  · rw [if_pos h]
    have hv : (c.toNat + 32).isValidChar := by
      left
      omega
    have he : (Char.ofNat (c.toNat + 32)).toNat = c.toNat + 32 := by
      simp only [Char.ofNat, hv, dif_pos]
      simp [Char.ofNatAux, Char.toNat, UInt32.toNat, BitVec.toNat_ofNatLt]
    rw [he, if_neg (by omega)]
  · rw [if_neg h, if_neg h]

theorem lowerString_idem (s : String) : lowerString (lowerString s) = lowerString s := by
  simp [lowerString, List.map_map, Function.comp_def, char_toLower_idem]

theorem matchRgbAt_none_of_head_ne {c : Char} (cs : List Char) (h : c ≠ 'r') :
    matchRgbAt (c :: cs) = none := by
  rw [matchRgbAt.eq_def]
  split
  · next heq => rw [List.cons.injEq] at heq ; exact absurd heq.1 h
  · next heq => rw [List.cons.injEq] at heq ; exact absurd heq.1 h
  · rfl

theorem findRgb_none_of_no_r {cs : List Char} (h : ∀ c ∈ cs, c ≠ 'r') :
    findRgb cs = none := by
  induction cs with
  | nil => rfl
  | cons c rest ih =>
    rw [findRgb, matchRgbAt_none_of_head_ne rest (h c (by simp))]
    exact ih (fun x hx => h x (by simp [hx]))

theorem digitChar_mem_hex (m : Nat) (h : m < 16) :
    Nat.digitChar m ∈ "0123456789abcdef".data := by
  interval_cases m <;> decide

theorem toDigitsCore_mem_hex (fuel : Nat) :
    ∀ (n : Nat) (acc : List Char), (∀ c ∈ acc, c ∈ "0123456789abcdef".data) →
      ∀ c ∈ Nat.toDigitsCore 16 fuel n acc, c ∈ "0123456789abcdef".data := by
  induction fuel with
  | zero => intro n acc hacc c hc ; exact hacc c hc
  | succ fuel ih =>
    intro n acc hacc c hc
    rw [Nat.toDigitsCore] at hc
    by_cases hz : n / 16 = 0
    · rw [if_pos hz] at hc
      rcases List.mem_cons.mp hc with hc | hc
      · exact hc ▸ digitChar_mem_hex _ (Nat.mod_lt _ (by norm_num))
      · exact hacc c hc
    · rw [if_neg hz] at hc
      refine ih _ _ ?_ c hc
      intro x hx
      rcases List.mem_cons.mp hx with hx | hx
      · exact hx ▸ digitChar_mem_hex _ (Nat.mod_lt _ (by norm_num))
      · exact hacc x hx

theorem natToHexChars_mem (n : Nat) :
    ∀ c ∈ natToHexChars n, c ∈ "0123456789abcdef".data :=
  toDigitsCore_mem_hex (n + 1) n [] (by simp)

theorem pad2_mem {cs : List Char} {s : List Char} (hs : '0' ∈ s)
    (h : ∀ c ∈ cs, c ∈ s) : ∀ c ∈ pad2 cs, c ∈ s := by
  intro c hc
  rw [pad2] at hc
  split at hc
  · exact h c hc
  · rw [List.mem_append] at hc
    rcases hc with hc | hc
    · rw [List.eq_of_mem_replicate hc] ; exact hs
    · exact h c hc

theorem map_toLower_fixed {l : List Char} (h : ∀ c ∈ l, c.toLower = c) :
    l.map Char.toLower = l := by
  induction l with
  | nil => rfl
  | cons c rest ih =>
    rw [List.map_cons, h c (by simp), ih (fun x hx => h x (by simp [hx]))]

theorem normalizeColor_stable_of_hexChars {l : List Char}
    (h : ∀ c ∈ l, c ∈ "0123456789abcdef".data) :
    normalizeColor ⟨'#' :: l⟩ = ⟨'#' :: l⟩ := by
  have hnr : ∀ c ∈ '#' :: l, c ≠ 'r' := by
    intro c hc
    by_contra he
    subst he
    rcases List.mem_cons.mp hc with hc | hc
    · exact absurd hc (by decide)
    · exact absurd (h _ hc) (by decide)
  rw [normalizeColor]
  simp only [findRgb_none_of_no_r hnr]
  rw [lowerString]
  congr 1
  refine map_toLower_fixed ?_
  intro c hc
  rcases List.mem_cons.mp hc with hc | hc
  · subst hc ; decide
  · exact (show ∀ x ∈ "0123456789abcdef".data, Char.toLower x = x by decide) c (h c hc)

theorem normalizeColor_of_found {x : String} {d1 d2 d3 : List Char}
    (h : findRgb x.data = some (d1, d2, d3)) :
    normalizeColor x = ⟨'#' :: (pad2 (natToHexChars (parseIntDec d1)) ++
      pad2 (natToHexChars (parseIntDec d2)) ++ pad2 (natToHexChars (parseIntDec d3)))⟩ := by
  rw [normalizeColor, h]

theorem normalizeColor_stable_of_isSome {x : String} (hx : (findRgb x.data).isSome) :
    normalizeColor (normalizeColor x) = normalizeColor x := by
  rw [Option.isSome_iff_exists] at hx
  obtain ⟨⟨d1, d2, d3⟩, hfind⟩ := hx
  rw [normalizeColor_of_found hfind]
  refine normalizeColor_stable_of_hexChars ?_
  intro c hc
  rcases List.mem_append.mp hc with hc | hc
  · rcases List.mem_append.mp hc with hc | hc <;>
      exact pad2_mem (by decide) (natToHexChars_mem _) _ hc
  · exact pad2_mem (by decide) (natToHexChars_mem _) _ hc

/-! ## Supporting lemmas: `deltaE` evaluation -/

theorem gammaCorrect_of_le {v : ℝ} (h : v ≤ 0.04045) : gammaCorrect v = v / 12.92 := by
  rw [gammaCorrect, if_neg (not_lt.mpr h)]

theorem labF_of_le {t : ℝ} (h : t ≤ 0.008856) : labF t = 7.787 * t + 16 / 116 := by
  rw [labF, if_neg (not_lt.mpr h)]

/-- The two darkest greys land in the linear branches of both colour-space
transforms, so their CIE76 distance is an explicit rational expression well
below the merge threshold. -/
theorem deltaE_black_gray_lt : deltaE "#000000" "#020202" < 15 := by
  have h1 : hexToRgb "#000000" = some (0, 0, 0) := by decide
  have h2 : hexToRgb "#020202" = some (2, 2, 2) := by decide
  rw [deltaE, h1, h2]
  simp only [labOfRgb, rgbToXyz, xyzToLab]
  push_cast
  rw [gammaCorrect_of_le (by norm_num), gammaCorrect_of_le (by norm_num)]
  rw [labF_of_le (by norm_num), labF_of_le (by norm_num), labF_of_le (by norm_num),
      labF_of_le (by norm_num), labF_of_le (by norm_num), labF_of_le (by norm_num)]
  rw [show (15 : ℝ) = Real.sqrt 225 from by
        rw [show (225 : ℝ) = 15 ^ 2 from by norm_num, Real.sqrt_sq] ; norm_num]
  refine Real.sqrt_lt_sqrt (by positivity) ?_
  norm_num

/-! ## Supporting lemmas: sorting and perceptual clustering -/

theorem mem_insertByCountDesc {α : Type} (f : α → Nat) (e a : α) (l : List α) :
    a ∈ insertByCountDesc f e l ↔ a = e ∨ a ∈ l := by
  induction l with
  | nil => simp [insertByCountDesc]
  | cons y ys ih =>
    rw [insertByCountDesc]
    split
    · simp
    · simp [ih]
      tauto

theorem mem_sortByCountDesc {α : Type} (f : α → Nat) (a : α) (l : List α) :
    a ∈ sortByCountDesc f l ↔ a ∈ l := by
  induction l with
  | nil => simp [sortByCountDesc]
  | cons x xs ih => simp [sortByCountDesc, mem_insertByCountDesc, ih]

theorem sortByCountDesc_pairwise {α : Type} (f : α → Nat) (l : List α) :
    List.Pairwise (fun a b => f b ≤ f a) (sortByCountDesc f l) := by
  induction l with
  | nil => exact List.Pairwise.nil
  | cons x xs ih =>
    rw [sortByCountDesc]
    have : ∀ (m : List α), List.Pairwise (fun a b => f b ≤ f a) m →
        List.Pairwise (fun a b => f b ≤ f a) (insertByCountDesc f x m) := by
      intro m
      induction m with
      | nil => intro _ ; simp [insertByCountDesc]
      | cons y ys ihm =>
        intro hp
        rw [insertByCountDesc]
        split
        · next hge =>
          refine List.Pairwise.cons ?_ hp
          intro z hz
          rcases List.mem_cons.mp hz with hz | hz
          · exact hz ▸ hge
          · exact le_trans (List.rel_of_pairwise_cons hp hz) hge
        · next hlt =>
          refine List.Pairwise.cons ?_ (ihm (List.Pairwise.sublist (List.sublist_cons_self y ys) hp))
          intro z hz
          rcases (mem_insertByCountDesc f x z ys).mp hz with hz | hz
          · subst hz ; omega
          · exact List.rel_of_pairwise_cons hp hz
    exact this _ ih

theorem bestOfCluster_mem (x : PaletteEntry) (sim : List PaletteEntry) :
    bestOfCluster x sim ∈ x :: sim := by
  rw [bestOfCluster]
  split
  · simp
  · next y ys heq =>
    have : y ∈ sortByCountDesc (fun e => e.count) (x :: sim) := by
      rw [heq] ; simp
    exact (mem_sortByCountDesc _ _ _).mp this

theorem bestOfCluster_eq_head {x : PaletteEntry} {sim : List PaletteEntry}
    (h : ∀ y ∈ sim, y.count ≤ x.count) : bestOfCluster x sim = x := by
  rw [bestOfCluster, sortByCountDesc]
  cases hs : sortByCountDesc (fun e => e.count) sim with
  | nil => rw [insertByCountDesc]
  | cons y ys =>
    have hy : y ∈ sim := (mem_sortByCountDesc _ _ _).mp (hs ▸ List.mem_cons_self y ys)
    rw [insertByCountDesc, if_pos (h y hy)]

theorem perceptualDedup_subset : ∀ (l : List PaletteEntry), ∀ e ∈ perceptualDedup l, e ∈ l := by
  intro l
  induction l using perceptualDedup.induct with
  | case1 => intro e he ; rw [perceptualDedup] at he ; exact absurd he (List.not_mem_nil e)
  | case2 x rest ih =>
    intro e he
    rw [perceptualDedup] at he
    rcases List.mem_cons.mp he with he | he
    · have := bestOfCluster_mem x (rest.filter (fun y => decide (deltaE x.normalized y.normalized < 15)))
      rw [← he] at this
      rcases List.mem_cons.mp this with h2 | h2
      · exact h2 ▸ List.mem_cons_self x rest
      · exact List.mem_cons_of_mem x (List.mem_of_mem_filter h2)
    · exact List.mem_cons_of_mem x (List.mem_of_mem_filter (ih e he))

theorem perceptualDedup_pairwise :
    ∀ (l : List PaletteEntry), List.Pairwise (fun a b => b.count ≤ a.count) l →
      List.Pairwise (fun a b => ¬ deltaE a.normalized b.normalized < 15) (perceptualDedup l) := by
  intro l
  induction l using perceptualDedup.induct with
  | case1 => intro _ ; rw [perceptualDedup] ; exact List.Pairwise.nil
  | case2 x rest ih =>
    intro hs
    rw [perceptualDedup]
    have hcount : ∀ y ∈ rest, y.count ≤ x.count := fun y hy =>
      List.rel_of_pairwise_cons hs hy
    have hbest : bestOfCluster x
        (rest.filter (fun y => decide (deltaE x.normalized y.normalized < 15))) = x :=
      bestOfCluster_eq_head (fun y hy => hcount y (List.mem_of_mem_filter hy))
    rw [hbest]
    refine List.Pairwise.cons ?_ ?_
    · intro z hz
      have hzf := perceptualDedup_subset _ z hz
      have := List.of_mem_filter hzf
      simp only [Bool.not_eq_true'] at this
      exact of_decide_eq_false this
    · exact ih (List.Pairwise.sublist (List.filter_sublist rest) (List.Pairwise.of_cons hs))

theorem perceptualDedup_dominance :
    ∀ (l : List PaletteEntry), List.Pairwise (fun a b => b.count ≤ a.count) l →
      ∀ y ∈ l, y ∉ perceptualDedup l →
        ∃ z ∈ perceptualDedup l,
          deltaE z.normalized y.normalized < 15 ∧ y.count ≤ z.count := by
  intro l
  induction l using perceptualDedup.induct with
  | case1 => intro _ y hy ; exact absurd hy (List.not_mem_nil y)
  | case2 x rest ih =>
    intro hs y hy hnot
    have hcount : ∀ y ∈ rest, y.count ≤ x.count := fun y hy =>
      List.rel_of_pairwise_cons hs hy
    have hbest : bestOfCluster x
        (rest.filter (fun y => decide (deltaE x.normalized y.normalized < 15))) = x :=
      bestOfCluster_eq_head (fun y hy => hcount y (List.mem_of_mem_filter hy))
    rw [perceptualDedup, hbest] at hnot ⊢
    rcases List.mem_cons.mp hy with hy | hy
    · exact absurd (hy ▸ List.mem_cons_self x _) hnot
    · by_cases hclose : deltaE x.normalized y.normalized < 15
      · exact ⟨x, List.mem_cons_self x _, hclose, hcount y hy⟩
      · have hyf : y ∈ rest.filter (fun y => !decide (deltaE x.normalized y.normalized < 15)) :=
          List.mem_filter.mpr ⟨hy, by simp [hclose]⟩
        have hnot2 : y ∉ perceptualDedup
            (rest.filter (fun y => !decide (deltaE x.normalized y.normalized < 15))) :=
          fun hmem => hnot (List.mem_cons_of_mem x hmem)
        obtain ⟨z, hz1, hz2, hz3⟩ :=
          ih (List.Pairwise.sublist (List.filter_sublist rest) (List.Pairwise.of_cons hs)) y hyf hnot2
        exact ⟨z, List.mem_cons_of_mem x hz1, hz2, hz3⟩

theorem buildPalette_sorted (m : ColorMap) (total : Nat) :
    List.Pairwise (fun a b => b.count ≤ a.count) (buildPalette m total) :=
  sortByCountDesc_pairwise _ _

theorem mergeByNormalized_step_distinct (base : List PaletteEntry) (dc : PaletteEntry)
    (h : List.Pairwise (fun a b => a.normalized ≠ b.normalized) base) :
    List.Pairwise (fun a b => a.normalized ≠ b.normalized)
      (if base.any (fun e => e.normalized == dc.normalized) then base else base ++ [dc]) := by
  split
  · exact h
  · next hany =>
    rw [List.pairwise_append]
    refine ⟨h, List.pairwise_singleton _ _, ?_⟩
    intro a ha b hb
    rw [List.mem_singleton] at hb
    subst hb
    have := List.any_eq_false.mp (Bool.eq_false_iff.mpr hany) a ha
    simpa using this

theorem mergeByNormalized_distinct :
    ∀ (extra base : List PaletteEntry),
      List.Pairwise (fun a b => a.normalized ≠ b.normalized) base →
      List.Pairwise (fun a b => a.normalized ≠ b.normalized)
        (mergeByNormalized base extra) := by
  intro extra
  induction extra with
  | nil => intro base h ; exact h
  | cons dc rest ih =>
    intro base h
    unfold mergeByNormalized at ih ⊢
    rw [List.foldl_cons]
    exact ih _ (mergeByNormalized_step_distinct base dc h)

/-! ## Supporting lemmas: the scenario pipeline -/

theorem processElement_scenarioPlain (m : ColorMap) : processElement m scenarioPlain = m := by
  simp only [processElement]
  rw [if_neg (by decide)]
  rw [show elementColors scenarioPlain = [] from by decide]
  rfl

theorem foldl_replicate_plain (n : Nat) (m : ColorMap) :
    List.foldl processElement m (List.replicate n scenarioPlain) = m := by
  induction n with
  | zero => rfl
  | succ k ih =>
    rw [List.replicate_succ, List.foldl_cons, processElement_scenarioPlain]
    exact ih

theorem scenario_colorMap :
    processElements (List.replicate 15 scenarioButton ++ List.replicate 985 scenarioPlain) =
      [("#635bff", ⟨"rgb(99, 91, 255)", 15, 375⟩)] := by
  rw [processElements, List.foldl_append, foldl_replicate_plain]
  decide

theorem scenario_survives :
    survivesPaletteFilter (paletteThreshold 1000) 1000 ⟨"rgb(99, 91, 255)", 15, 375⟩ = true := by
  rw [survivesPaletteFilter]
  rw [if_neg (by decide)]
  rw [show isStructuralColor ⟨"rgb(99, 91, 255)", 15, 375⟩ 1000 = false from by
    rw [isStructuralColor]
    rw [if_neg (by simp), if_neg (by rintro ⟨h, -⟩ ; norm_num at h)]]
  rfl

theorem scenario_buildPalette :
    buildPalette [("#635bff", ⟨"rgb(99, 91, 255)", 15, 375⟩)] 1000 =
      [⟨"rgb(99, 91, 255)", "#635bff", 15, "high"⟩] := by
  rw [buildPalette]
  rw [List.filter_cons, if_pos scenario_survives]
  rfl

theorem dedup_singleton (e : PaletteEntry) : perceptualDedup [e] = [e] := by
  rw [perceptualDedup]
  simp only [List.filter_nil]
  rw [perceptualDedup]
  rfl

/-! ## Supporting lemmas: association lists and accumulated originals -/

theorem alistGet_mem {β : Type} {m : List (String × β)} {k : String} {v : β}
    (h : alistGet m k = some v) : (k, v) ∈ m := by
  induction m with
  | nil => exact absurd h (by simp [alistGet])
  | cons p rest ih =>
    rw [alistGet] at h
    split at h
    · next heq => simp only [Option.some.injEq] at h ; subst h ; subst heq ; exact List.mem_cons_self _ _
    · exact List.mem_cons_of_mem _ (ih h)

theorem mem_alistSet {β : Type} {m : List (String × β)} {k key : String} {v d : β}
    (h : (k, d) ∈ alistSet m key v) : (k = key ∧ d = v) ∨ (k, d) ∈ m := by
  induction m with
  | nil =>
    rw [alistSet] at h
    rcases List.mem_singleton.mp h with h
    exact Or.inl (by simpa using h)
  | cons p rest ih =>
    rw [alistSet] at h
    split at h
    · next heq =>
      rcases List.mem_cons.mp h with h | h
      · exact Or.inl (by simpa using h)
      · exact Or.inr (List.mem_cons_of_mem _ h)
    · rcases List.mem_cons.mp h with h | h
      · exact Or.inr (h ▸ List.mem_cons_self _ _)
      · rcases ih h with h2 | h2
        · exact Or.inl h2
        · exact Or.inr (List.mem_cons_of_mem _ h2)

theorem alistGet_alistSet_self {β : Type} (m : List (String × β)) (k : String) (v : β) :
    alistGet (alistSet m k v) k = some v := by
  induction m with
  | nil => simp [alistSet, alistGet]
  | cons p rest ih =>
    rw [alistSet]
    split
    · rw [alistGet, if_pos rfl]
    · next hne => rw [alistGet, if_neg hne] ; exact ih

theorem alistGet_alistSet_ne {β : Type} (m : List (String × β)) {k k' : String} (v : β)
    (h : k' ≠ k) : alistGet (alistSet m k v) k' = alistGet m k' := by
  induction m with
  | nil =>
    rw [alistSet, alistGet, alistGet, if_neg (fun he => h he.symm)]
    rfl
  | cons p rest ih =>
    rw [alistSet]
    split
    · next heq =>
      subst heq
      rw [alistGet, alistGet, if_neg (fun he => h he.symm), if_neg (fun he => h he.symm)]
    · rw [alistGet, alistGet]
      split
      · rfl
      · exact ih

theorem addColor_preserves_originals {m : ColorMap} {score : Nat} {c : String}
    (hm : ∀ k d, (k, d) ∈ m → d.original ≠ "rgba(0, 0, 0, 0)" ∧ d.original ≠ "transparent") :
    ∀ k d, (k, d) ∈ addColor score m c →
      d.original ≠ "rgba(0, 0, 0, 0)" ∧ d.original ≠ "transparent" := by
  intro k d hd
  rw [addColor] at hd
  split at hd
  · next hc =>
    simp only [bne_iff_ne, ne_eq, Bool.and_eq_true, decide_eq_true_eq] at hc
    rcases mem_alistSet hd with ⟨hk, hv⟩ | hmem
    · subst hv
      cases hget : alistGet m (normalizeColor c) with
      | none => simp only [hget, Option.getD_none] ; exact ⟨hc.1, hc.2⟩
      | some ex =>
        simp only [hget, Option.getD_some]
        exact hm _ ex (alistGet_mem hget)
    · exact hm k d hmem
  · exact hm k d hd

theorem foldl_addColor_preserves_originals {score : Nat} :
    ∀ (cs : List String) (m : ColorMap),
    (∀ k d, (k, d) ∈ m → d.original ≠ "rgba(0, 0, 0, 0)" ∧ d.original ≠ "transparent") →
    ∀ k d, (k, d) ∈ cs.foldl (addColor score) m →
      d.original ≠ "rgba(0, 0, 0, 0)" ∧ d.original ≠ "transparent" := by
  intro cs
  induction cs with
  | nil => intro m hm ; exact hm
  | cons c rest ih =>
    intro m hm
    rw [List.foldl_cons]
    exact ih _ (addColor_preserves_originals hm)

theorem processElements_originals :
    ∀ (els : List DomElement) (k : String) (d : ColorData),
      (k, d) ∈ processElements els →
      d.original ≠ "rgba(0, 0, 0, 0)" ∧ d.original ≠ "transparent" := by
  have step : ∀ (els : List DomElement) (m : ColorMap),
      (∀ k d, (k, d) ∈ m → d.original ≠ "rgba(0, 0, 0, 0)" ∧ d.original ≠ "transparent") →
      ∀ k d, (k, d) ∈ els.foldl processElement m →
        d.original ≠ "rgba(0, 0, 0, 0)" ∧ d.original ≠ "transparent" := by
    intro els
    induction els with
    | nil => intro m hm ; exact hm
    | cons el rest ih =>
      intro m hm
      rw [List.foldl_cons]
      refine ih _ ?_
      rw [processElement]
      split
      · exact hm
      · exact foldl_addColor_preserves_originals _ _ hm
  intro els
  exact step els [] (by simp)

theorem isStructuralColor_iff (d : ColorData) (total : Nat)
    (h1 : d.original ≠ "rgba(0, 0, 0, 0)") (h2 : d.original ≠ "transparent") :
    (isStructuralColor d total = true ↔
      ((d.count : ℚ) / (total : ℚ)) * 100 > 40 ∧ (d.score : ℚ) < (d.count : ℚ) * 1.2) := by
  rw [isStructuralColor, if_neg (by simp [h1, h2])]
  by_cases hc : ((d.count : ℚ) / (total : ℚ)) * 100 > 40 ∧ (d.score : ℚ) < (d.count : ℚ) * 1.2
  · rw [if_pos hc] ; simp [hc]
  · rw [if_neg hc] ; simp [hc]

theorem white_scenario_excluded :
    survivesPaletteFilter (paletteThreshold 1000) 1000 ⟨"rgb(255, 255, 255)", 600, 600⟩ = false := by
  rw [survivesPaletteFilter, if_neg (by decide)]
  rw [show isStructuralColor ⟨"rgb(255, 255, 255)", 600, 600⟩ 1000 = true from by
    rw [isStructuralColor]
    rw [if_neg (by simp), if_pos (by constructor <;> norm_num)]]
  rfl

/-! ## Supporting lemmas: framework detection, links, hover merge, rgba parsing -/

theorem any_ite_singleton (c : Prop) [Decidable c] (fw : Framework) (p : Framework → Bool) :
    (if c then [fw] else []).any p = (decide c && p fw) := by
  split <;> simp_all

theorem processLink_keeps_specific {m : LinkMap} {l : LinkObs} {key : String} {ex : LinkRec}
    (hget : alistGet m key = some ex)
    (h1 : ex.defaultTextDecoration ≠ "") (h2 : ex.defaultTextDecoration ≠ "none") :
    alistGet (processLink m l) key = some ex := by
  rw [processLink]
  by_cases hk : key = normalizeColor l.color
  · subst hk
    simp only [hget]
    rw [if_neg (by rintro ⟨h, -⟩ ; rcases h with h | h
                   · exact h1 h
                   · exact h2 h)]
    exact hget
  · cases hget2 : alistGet m (normalizeColor l.color) with
    | none =>
      simp only []
      rw [alistGet_alistSet_ne _ _ hk]
      exact hget
    | some ex2 =>
      simp only []
      split
      · rw [alistGet_alistSet_ne _ _ hk] ; exact hget
      · exact hget

theorem processLink_upgrades {m : LinkMap} {l : LinkObs} {ex : LinkRec}
    (hget : alistGet m (normalizeColor l.color) = some ex)
    (h1 : ex.defaultTextDecoration = "" ∨ ex.defaultTextDecoration = "none")
    (h2 : l.textDecoration ≠ "") (h3 : l.textDecoration ≠ "none") :
    alistGet (processLink m l) (normalizeColor l.color) =
      some {ex with defaultTextDecoration := l.textDecoration} := by
  rw [processLink]
  simp only [hget]
  rw [if_pos ⟨h1, h2, h3⟩]
  exact alistGet_alistSet_self _ _ _

theorem foldl_processLink_keeps_specific :
    ∀ (ls : List LinkObs) (m : LinkMap) (key : String) (ex : LinkRec),
      alistGet m key = some ex →
      ex.defaultTextDecoration ≠ "" → ex.defaultTextDecoration ≠ "none" →
      alistGet (ls.foldl processLink m) key = some ex := by
  intro ls
  induction ls with
  | nil => intro m key ex h _ _ ; exact h
  | cons l rest ih =>
    intro m key ex h h1 h2
    rw [List.foldl_cons]
    exact ih _ key ex (processLink_keeps_specific h h1 h2) h1 h2

theorem mergeHoverFocus_step_filter (p : List PaletteEntry) (c color : String)
    (hc : p.any (fun e => e.color == c) = true) :
    ((if !(p.any (fun e => e.color == color)) && (color != "") then
        p ++ [⟨color, hoverNormalize color, 1, "medium"⟩] else p).filter
      (fun e => e.color == c) = p.filter (fun e => e.color == c)) ∧
    ((if !(p.any (fun e => e.color == color)) && (color != "") then
        p ++ [⟨color, hoverNormalize color, 1, "medium"⟩] else p).any
      (fun e => e.color == c) = true) := by
  split
  · next hcond =>
    simp only [Bool.and_eq_true, Bool.not_eq_true'] at hcond
    have hne : (color == c) = false := by
      by_contra hbc
      rw [Bool.not_eq_false, beq_iff_eq] at hbc
      subst hbc
      rw [hcond.1] at hc
      exact Bool.false_ne_true hc
    constructor
    · rw [List.filter_append]
      simp only [List.filter_cons, List.filter_nil]
      rw [show ((⟨color, hoverNormalize color, 1, "medium"⟩ : PaletteEntry).color == c) = false from hne]
      simp
    · rw [List.any_append, hc]
      rfl
  · exact ⟨rfl, hc⟩

theorem mergeHoverFocus_filter_raw :
    ∀ (cs : List String) (p : List PaletteEntry) (c : String),
      p.any (fun e => e.color == c) = true →
      (mergeHoverFocus p cs).filter (fun e => e.color == c) =
        p.filter (fun e => e.color == c) := by
  intro cs
  induction cs with
  | nil => intro p c _ ; rfl
  | cons color rest ih =>
    intro p c hc
    unfold mergeHoverFocus at ih ⊢
    rw [List.foldl_cons]
    obtain ⟨hf, ha⟩ := mergeHoverFocus_step_filter p c color hc
    rw [ih _ c ha, hf]

theorem takeWhile_all_append (p : Char → Bool) :
    ∀ (l1 : List Char) (c : Char) (l2 : List Char), (∀ a ∈ l1, p a = true) → p c = false →
      (l1 ++ c :: l2).takeWhile p = l1 := by
  intro l1
  induction l1 with
  | nil =>
    intro c l2 _ hc
    simp [List.takeWhile_cons, hc]
  | cons a l1' ih =>
    intro c l2 h hc
    rw [List.cons_append, List.takeWhile_cons, h a (by simp)]
    simp only [if_true]
    rw [ih c l2 (fun x hx => h x (by simp [hx])) hc]

theorem dropWhile_head_false {p : Char → Bool} {c : Char} (hc : p c = false)
    (l : List Char) : (c :: l).dropWhile p = c :: l := by
  simp [List.dropWhile_cons, hc]

theorem digit_not_jsWhitespace {c : Char} (h : c.isDigit = true) : jsWhitespace c = false := by
  by_contra hw
  rw [Bool.not_eq_false] at hw
  simp only [jsWhitespace, Bool.or_eq_true, decide_eq_true_eq] at hw
  rcases hw with ((((hw | hw) | hw) | hw) | hw) | hw <;>
    (subst hw ; exact absurd h (by decide))

theorem matchChannels_spec (R G B rest : List Char)
    (hR : R ≠ []) (hRd : ∀ c ∈ R, c.isDigit = true)
    (hG : G ≠ []) (hGd : ∀ c ∈ G, c.isDigit = true)
    (hB : B ≠ []) (hBd : ∀ c ∈ B, c.isDigit = true) :
    matchChannels (R ++ ',' :: ' ' :: (G ++ ',' :: ' ' :: (B ++ ',' :: rest))) =
      some (R, G, B) := by
  obtain ⟨g, G', hGe⟩ := List.exists_cons_of_ne_nil hG
  obtain ⟨b, B', hBe⟩ := List.exists_cons_of_ne_nil hB
  have e1 : (R ++ ',' :: ' ' :: (G ++ ',' :: ' ' :: (B ++ ',' :: rest))).takeWhile
      Char.isDigit = R :=
    takeWhile_all_append _ R ',' _ hRd (by decide)
  have e2 : (G ++ ',' :: ' ' :: (B ++ ',' :: rest)).takeWhile Char.isDigit = G :=
    takeWhile_all_append _ G ',' _ hGd (by decide)
  have e3 : (B ++ ',' :: rest).takeWhile Char.isDigit = B :=
    takeWhile_all_append _ B ',' _ hBd (by decide)
  have w2 : (G ++ ',' :: ' ' :: (B ++ ',' :: rest)).dropWhile jsWhitespace =
      G ++ ',' :: ' ' :: (B ++ ',' :: rest) := by
    rw [hGe, List.cons_append]
    exact dropWhile_head_false (digit_not_jsWhitespace (hGd g (by simp [hGe]))) _
  have w3 : (B ++ ',' :: rest).dropWhile jsWhitespace = B ++ ',' :: rest := by
    rw [hBe, List.cons_append]
    exact dropWhile_head_false (digit_not_jsWhitespace (hBd b (by simp [hBe]))) _
  have w1 : (' ' :: (G ++ ',' :: ' ' :: (B ++ ',' :: rest))).dropWhile jsWhitespace =
      G ++ ',' :: ' ' :: (B ++ ',' :: rest) := by
    rw [List.dropWhile_cons, if_pos (by decide)]
    exact w2
  have w1' : (' ' :: (B ++ ',' :: rest)).dropWhile jsWhitespace = B ++ ',' :: rest := by
    rw [List.dropWhile_cons, if_pos (by decide)]
    exact w3
  rw [matchChannels]
  simp only [e1, List.drop_left, w1, e2, w1', e3, List.isEmpty_iff]
  rw [if_neg hR, if_neg hG, if_neg hB]

theorem findRgb_mkRgba (R G B A : List Char)
    (hR : R ≠ []) (hRd : ∀ c ∈ R, c.isDigit = true)
    (hG : G ≠ []) (hGd : ∀ c ∈ G, c.isDigit = true)
    (hB : B ≠ []) (hBd : ∀ c ∈ B, c.isDigit = true) :
    findRgb (mkRgba R G B A).data = some (R, G, B) := by
  have : (mkRgba R G B A).data =
      'r' :: 'g' :: 'b' :: 'a' :: '(' ::
        (R ++ ',' :: ' ' :: (G ++ ',' :: ' ' :: (B ++ ',' :: (' ' :: (A ++ [')']))))) := by
    rw [mkRgba]
    simp
  rw [this, findRgb, matchRgbAt]
  rw [matchChannels_spec R G B _ hR hRd hG hGd hB hBd]

theorem normalizeColor_mkRgba (R G B A1 A2 : List Char)
    (hR : R ≠ []) (hRd : ∀ c ∈ R, c.isDigit = true)
    (hG : G ≠ []) (hGd : ∀ c ∈ G, c.isDigit = true)
    (hB : B ≠ []) (hBd : ∀ c ∈ B, c.isDigit = true) :
    normalizeColor (mkRgba R G B A1) =
      (⟨'#' :: (pad2 (natToHexChars (parseIntDec R)) ++ pad2 (natToHexChars (parseIntDec G)) ++
        pad2 (natToHexChars (parseIntDec B)))⟩ : String) ∧
    normalizeColor (mkRgba R G B A1) = normalizeColor (mkRgba R G B A2) := by
  have e1 : normalizeColor (mkRgba R G B A1) =
      (⟨'#' :: (pad2 (natToHexChars (parseIntDec R)) ++ pad2 (natToHexChars (parseIntDec G)) ++
        pad2 (natToHexChars (parseIntDec B)))⟩ : String) := by
    rw [normalizeColor, findRgb_mkRgba R G B A1 hR hRd hG hGd hB hBd]
  have e2 : normalizeColor (mkRgba R G B A2) =
      (⟨'#' :: (pad2 (natToHexChars (parseIntDec R)) ++ pad2 (natToHexChars (parseIntDec G)) ++
        pad2 (natToHexChars (parseIntDec B)))⟩ : String) := by
    rw [normalizeColor, findRgb_mkRgba R G B A2 hR hRd hG hGd hB hBd]
  exact ⟨e1, e1.trans e2.symm⟩

theorem addColor_merges_same_normalized (c1 c2 : String) (s1 s2 : Nat)
    (h1a : c1 ≠ "rgba(0, 0, 0, 0)") (h1b : c1 ≠ "transparent")
    (h2a : c2 ≠ "rgba(0, 0, 0, 0)") (h2b : c2 ≠ "transparent")
    (heq : normalizeColor c1 = normalizeColor c2) :
    addColor s2 (addColor s1 [] c1) c2 = [(normalizeColor c1, ⟨c1, 2, s1 + s2⟩)] := by
  have inner : addColor s1 [] c1 = [(normalizeColor c1, ⟨c1, 1, s1⟩)] := by
    rw [addColor, if_pos (by simp only [Bool.and_eq_true, bne_iff_ne, ne_eq] ; exact ⟨h1a, h1b⟩)]
    simp [alistGet, alistSet]
  rw [inner, addColor,
    if_pos (by simp only [Bool.and_eq_true, bne_iff_ne, ne_eq] ; exact ⟨h2a, h2b⟩), ← heq]
  simp [alistGet, alistSet]

/-! ## Supporting lemmas: a dropped close pair for the dedup dominance property -/

theorem closePair_survives1 :
    survivesPaletteFilter (paletteThreshold 100) 100 ⟨"rgb(0, 0, 0)", 20, 30⟩ = true := by
  rw [survivesPaletteFilter, if_neg (by decide)]
  rw [show isStructuralColor ⟨"rgb(0, 0, 0)", 20, 30⟩ 100 = false from by
    rw [isStructuralColor]
    rw [if_neg (by simp), if_neg (by rintro ⟨h, -⟩ ; norm_num at h)]]
  rfl

theorem closePair_survives2 :
    survivesPaletteFilter (paletteThreshold 100) 100 ⟨"rgb(2, 2, 2)", 15, 30⟩ = true := by
  rw [survivesPaletteFilter, if_neg (by decide)]
  rw [show isStructuralColor ⟨"rgb(2, 2, 2)", 15, 30⟩ 100 = false from by
    rw [isStructuralColor]
    rw [if_neg (by simp), if_neg (by rintro ⟨h, -⟩ ; norm_num at h)]]
  rfl

theorem closePair_buildPalette :
    buildPalette closePairMap 100 =
      [⟨"rgb(0, 0, 0)", "#000000", 20, "high"⟩, ⟨"rgb(2, 2, 2)", "#020202", 15, "high"⟩] := by
  rw [buildPalette, closePairMap]
  rw [List.filter_cons, if_pos closePair_survives1, List.filter_cons, if_pos closePair_survives2]
  rfl

theorem closePair_dedup :
    perceptualDedup
        [⟨"rgb(0, 0, 0)", "#000000", 20, "high"⟩, ⟨"rgb(2, 2, 2)", "#020202", 15, "high"⟩] =
      [⟨"rgb(0, 0, 0)", "#000000", 20, "high"⟩] := by
  rw [perceptualDedup]
  have hcl : decide (deltaE "#000000" "#020202" < 15) = true := decide_eq_true deltaE_black_gray_lt
  simp only [List.filter_cons, List.filter_nil, hcl, Bool.not_true, if_pos, if_neg,
    Bool.false_eq_true, if_false, if_true]
  rw [perceptualDedup]
  rw [show bestOfCluster ⟨"rgb(0, 0, 0)", "#000000", 20, "high"⟩
      [⟨"rgb(2, 2, 2)", "#020202", 15, "high"⟩] = ⟨"rgb(0, 0, 0)", "#000000", 20, "high"⟩
    from by decide]

/-! ## Claim theorems -/

/-- C1 counterexample: the dark-mode/mobile merge deduplicates by exact
equality of the normalized hex only, so merging a dark-mode colour
perceptually close (deltaE < 15) to an existing palette entry produces a
merged palette violating the claimed perceptual invariant. -/
theorem darkMergeBreaksPerceptualInvariant :
    mergeByNormalized [⟨"rgb(0, 0, 0)", "#000000", 5, "high"⟩]
        [⟨"rgb(2, 2, 2)", "#020202", 3, "low"⟩] =
      [⟨"rgb(0, 0, 0)", "#000000", 5, "high"⟩, ⟨"rgb(2, 2, 2)", "#020202", 3, "low"⟩] ∧
    deltaE "#000000" "#020202" < 15 ∧
    ¬ List.Pairwise (fun a b => ¬ deltaE a.normalized b.normalized < 15)
      (mergeByNormalized [⟨"rgb(0, 0, 0)", "#000000", 5, "high"⟩]
        [⟨"rgb(2, 2, 2)", "#020202", 3, "low"⟩]) := by
  have hm : mergeByNormalized [⟨"rgb(0, 0, 0)", "#000000", 5, "high"⟩]
      [⟨"rgb(2, 2, 2)", "#020202", 3, "low"⟩] =
      [⟨"rgb(0, 0, 0)", "#000000", 5, "high"⟩, ⟨"rgb(2, 2, 2)", "#020202", 3, "low"⟩] := by
    decide
  refine ⟨hm, deltaE_black_gray_lt, ?_⟩
  rw [hm]
  intro hp
  exact List.rel_of_pairwise_cons hp (List.mem_cons_self _ _) deltaE_black_gray_lt

/-- C1 (amended): within one `extractColors` pass no two finalized palette
entries are at perceptual distance below 15 and every merged-away entry is
dominated by a kept entry at distance below 15 with at least its count; the
dark-mode and mobile merges deduplicate only by exact equality of the
normalized hex, an invariant they do preserve. -/
theorem paletteDedupInvariantAndExactMerge :
    (∀ (m : ColorMap) (total : Nat),
      List.Pairwise (fun a b => ¬ deltaE a.normalized b.normalized < 15)
        (perceptualDedup (buildPalette m total))) ∧
    (∀ (m : ColorMap) (total : Nat), ∀ y ∈ buildPalette m total,
      y ∉ perceptualDedup (buildPalette m total) →
      ∃ z ∈ perceptualDedup (buildPalette m total),
        deltaE z.normalized y.normalized < 15 ∧ y.count ≤ z.count) ∧
    (∀ (base extra : List PaletteEntry),
      List.Pairwise (fun a b => a.normalized ≠ b.normalized) base →
      List.Pairwise (fun a b => a.normalized ≠ b.normalized) (mergeByNormalized base extra)) :=
  ⟨fun m total => perceptualDedup_pairwise _ (buildPalette_sorted m total),
   fun m total => perceptualDedup_dominance _ (buildPalette_sorted m total),
   fun base extra h => mergeByNormalized_distinct extra base h⟩

/-- C1 witness: the amended theorem instantiated on a concrete colour map
whose two entries merge into one, and on a concrete distinct-hex merge. -/
theorem paletteDedupInvariantWitness :
    List.Pairwise (fun a b => ¬ deltaE a.normalized b.normalized < 15)
      (perceptualDedup (buildPalette closePairMap 100)) ∧
    (∃ z ∈ perceptualDedup (buildPalette closePairMap 100),
      deltaE z.normalized
          (⟨"rgb(2, 2, 2)", "#020202", 15, "high"⟩ : PaletteEntry).normalized < 15 ∧
      (⟨"rgb(2, 2, 2)", "#020202", 15, "high"⟩ : PaletteEntry).count ≤ z.count) ∧
    List.Pairwise (fun a b => a.normalized ≠ b.normalized)
      (mergeByNormalized [⟨"rgb(0, 0, 0)", "#000000", 5, "high"⟩]
        [⟨"rgb(9, 9, 9)", "#090909", 3, "low"⟩]) := by
  refine ⟨paletteDedupInvariantAndExactMerge.1 closePairMap 100, ?_,
    paletteDedupInvariantAndExactMerge.2.2 _ _ (by decide)⟩
  refine paletteDedupInvariantAndExactMerge.2.1 closePairMap 100 _ ?_ ?_
  · rw [closePair_buildPalette]
    decide
  · rw [closePair_buildPalette, closePair_dedup]
    decide

/-- C2: on a 1000-element page with 15 visible `btn btn-primary` buttons of
background `rgb(99, 91, 255)`, the scorer assigns each button the
colored-button override score 25, the threshold is `max(3, ⌊1000·0.01⌋) = 10`
which count 15 survives, and the resulting palette is exactly one entry for
that colour with confidence "high". -/
theorem coloredButtonScenarioHighConfidence :
    25 ≤ computeScore scenarioButton ∧
    paletteThreshold 1000 = 10 ∧
    survivesPaletteFilter (paletteThreshold 1000) 1000 ⟨"rgb(99, 91, 255)", 15, 375⟩ = true ∧
    extractPalette (List.replicate 15 scenarioButton ++ List.replicate 985 scenarioPlain) =
      [⟨"rgb(99, 91, 255)", "#635bff", 15, "high"⟩] := by
  refine ⟨by decide, by decide, scenario_survives, ?_⟩
  rw [extractPalette]
  rw [show (List.replicate 15 scenarioButton ++ List.replicate 985 scenarioPlain).length = 1000
    from by rw [List.length_append, List.length_replicate, List.length_replicate]]
  rw [scenario_colorMap, scenario_buildPalette, dedup_singleton]

/-- C3 counterexample: the shadows extractor assigns "high" to a shadow seen
6 times, while the claimed uniform rule (count > 10 high, > 3 medium) would
assign "medium". -/
theorem shadowConfidenceNotUniform :
    processShadows [("0px 4px 6px rgba(0,0,0,0.1)", 6)] =
      [⟨"0px 4px 6px rgba(0,0,0,0.1)", 6, "high"⟩] ∧
    specUniformConfidence 6 = "medium" ∧
    shadowConfidence 6 ≠ specUniformConfidence 6 :=
  ⟨by decide, by decide, by decide⟩

set_option maxRecDepth 8192 in
/-- C3 (amended): border-radius and borders bucket by the uniform
count > 10 / count > 3 rule; shadows bucket by count > 5 / count > 2,
agreeing with the uniform rule exactly for counts ≤ 2, 4-5 and above 10;
the spacing extractor assigns no confidence at all. -/
theorem geometryConfidenceRules : ∀ n : Nat,
    borderRadiusConfidence n = specUniformConfidence n ∧
    borderComboConfidence n = specUniformConfidence n ∧
    (shadowConfidence n = "high" ↔ 5 < n) ∧
    (shadowConfidence n = "medium" ↔ 2 < n ∧ n ≤ 5) ∧
    (shadowConfidence n = specUniformConfidence n ↔ n ≤ 2 ∨ (3 < n ∧ n ≤ 5) ∨ 10 < n) := by
  intro n
  refine ⟨rfl, rfl, ?_, ?_, ?_⟩ <;>
    by_cases h10 : 10 < n <;> by_cases h5 : 5 < n <;> by_cases h2 : 2 < n <;>
      by_cases h3 : 3 < n <;>
      first
        | omega
        | (simp [shadowConfidence, specUniformConfidence, h10, h5, h2, h3] ; omega)
        | simp [shadowConfidence, specUniformConfidence, h10, h5, h2, h3]

/-- C4 counterexample: the rgb regex is case-sensitive but the fallback
lowercases, so `"RGB(1, 2, 3)"` normalizes to `"rgb(1, 2, 3)"` and a second
normalization yields `"#010203"` — idempotence fails. -/
theorem normalizeNotIdempotentOnUppercaseRgb :
    normalizeColor (normalizeColor "RGB(1, 2, 3)") ≠ normalizeColor "RGB(1, 2, 3)" := by
  decide

/-- C4 (amended): normalization is idempotent on every input that already
matches the rgb pattern or whose lowercasing introduces no new match (in
particular every already-lowercase string, and inputs like `"RED"` or
`"#FFF"`), and a second application is always a fixed point. -/
theorem normalizeIdempotenceCharacterization :
    (∀ x : String, (findRgb x.data).isSome ∨ findRgb (lowerString x).data = none →
      normalizeColor (normalizeColor x) = normalizeColor x) ∧
    (∀ x : String,
      normalizeColor (normalizeColor (normalizeColor x)) =
        normalizeColor (normalizeColor x)) := by
  have main1 : ∀ x : String, (findRgb x.data).isSome ∨ findRgb (lowerString x).data = none →
      normalizeColor (normalizeColor x) = normalizeColor x := by
    intro x h
    rcases h with hsome | hnone
    · exact normalizeColor_stable_of_isSome hsome
    · cases hfind : findRgb x.data with
      | some r =>
        exact normalizeColor_stable_of_isSome (by rw [hfind] ; rfl)
      | none =>
        have hx : normalizeColor x = lowerString x := by
          rw [normalizeColor, hfind]
        rw [hx, normalizeColor, hnone]
        exact lowerString_idem x
  refine ⟨main1, ?_⟩
  intro x
  cases hfind : findRgb x.data with
  | some r =>
    have h1 : normalizeColor (normalizeColor x) = normalizeColor x :=
      normalizeColor_stable_of_isSome (by rw [hfind] ; rfl)
    rw [h1]
    exact h1
  | none =>
    have hx : normalizeColor x = lowerString x := by
      rw [normalizeColor, hfind]
    rw [hx]
    cases hlf : findRgb (lowerString x).data with
    | some r =>
      exact main1 (lowerString x) (Or.inl (by rw [hlf] ; rfl))
    | none =>
      exact main1 (lowerString x) (Or.inr (by rw [lowerString_idem] ; exact hlf))

/-- C4 witness: idempotence at the concrete rgb input `"rgb(1, 2, 3)"` (the
match disjunct) and at `"RED"` (no match, and lowercasing to `"red"`
introduces none). -/
theorem normalizeIdempotenceWitness :
    ((findRgb "rgb(1, 2, 3)".data).isSome ∨ findRgb (lowerString "rgb(1, 2, 3)").data = none) ∧
    normalizeColor (normalizeColor "rgb(1, 2, 3)") = normalizeColor "rgb(1, 2, 3)" ∧
    ((findRgb "RED".data).isSome ∨ findRgb (lowerString "RED").data = none) ∧
    normalizeColor (normalizeColor "RED") = normalizeColor "RED" :=
  ⟨Or.inl (by decide),
   normalizeIdempotenceCharacterization.1 "rgb(1, 2, 3)" (Or.inl (by decide)),
   Or.inr (by decide),
   normalizeIdempotenceCharacterization.1 "RED" (Or.inr (by decide))⟩

/-- C5 counterexample: for an unparseable input the sentinel overrides
identity — `deltaE("red", "red")` is 999, not 0, so identity does not hold
for all inputs. -/
theorem deltaEIdentityFailsOnUnparseable :
    deltaE "red" "red" = 999 ∧ (999 : ℝ) ≠ 0 := by
  constructor
  · rw [deltaE]
    rw [show hexToRgb "red" = none from by decide]
  · norm_num

/-- C5 (amended): identity holds for parseable six-digit hex inputs,
symmetry holds for all inputs, and whenever either argument is unparseable
`deltaE` returns the sentinel 999, which is never below the duplicate
threshold 15. -/
theorem deltaEIdentitySymmetrySentinel :
    (∀ a : String, (hexToRgb a).isSome → deltaE a a = 0) ∧
    (∀ a b : String, deltaE a b = deltaE b a) ∧
    (∀ a b : String, hexToRgb a = none ∨ hexToRgb b = none →
      deltaE a b = 999 ∧ ¬ deltaE a b < 15) := by
  refine ⟨?_, ?_, ?_⟩
  · intro a ha
    rw [Option.isSome_iff_exists] at ha
    obtain ⟨⟨r, g, b⟩, hr⟩ := ha
    rw [deltaE, hr]
    simp [sub_self]
  · intro a b
    rw [deltaE, deltaE]
    cases h1 : hexToRgb a with
    | none =>
      cases h2 : hexToRgb b with
      | none => rfl
      | some p2 => rcases p2 with ⟨r2, g2, b2⟩ ; rfl
    | some p1 =>
      rcases p1 with ⟨r1, g1, b1⟩
      cases h2 : hexToRgb b with
      | none => rfl
      | some p2 =>
        rcases p2 with ⟨r2, g2, b2⟩
        simp only []
        congr 1
        ring
  · intro a b h
    have he : deltaE a b = 999 := by
      rw [deltaE]
      rcases h with h | h
      · rw [h]
      · rw [h]
        cases h1 : hexToRgb a with
        | none => rfl
        | some p1 => rcases p1 with ⟨r1, g1, b1⟩ ; rfl
    refine ⟨he, ?_⟩
    rw [he]
    norm_num

/-- C5 witness: the amended theorem at concrete inputs — identity at
`"#000000"` and the sentinel at the unparseable `"red"`. -/
theorem deltaESentinelWitness :
    deltaE "#000000" "#000000" = 0 ∧ deltaE "red" "#000000" = 999 ∧
      ¬ deltaE "red" "#000000" < 15 := by
  refine ⟨deltaEIdentitySymmetrySentinel.1 "#000000" (by decide), ?_, ?_⟩
  · exact (deltaEIdentitySymmetrySentinel.2.2 "red" "#000000" (Or.inl (by decide))).1
  · exact (deltaEIdentitySymmetrySentinel.2.2 "red" "#000000" (Or.inl (by decide))).2

/-- C6: a colour reaching the accumulation map never has a transparent
literal as its stored original (those are filtered at accumulation), on such
colours structural classification holds exactly when usage exceeds 40% of
all elements and score stays below 1.2 times count, and the white scenario
(600 of 1000 elements, baseline score only) is excluded from the palette. -/
theorem structuralColorCharacterization :
    (∀ (els : List DomElement) (k : String) (d : ColorData),
      (k, d) ∈ processElements els →
      d.original ≠ "rgba(0, 0, 0, 0)" ∧ d.original ≠ "transparent") ∧
    (∀ (d : ColorData) (total : Nat), 0 < total →
      d.original ≠ "rgba(0, 0, 0, 0)" → d.original ≠ "transparent" →
      (isStructuralColor d total = true ↔
        ((d.count : ℚ) / (total : ℚ)) * 100 > 40 ∧ (d.score : ℚ) < (d.count : ℚ) * 1.2)) ∧
    survivesPaletteFilter (paletteThreshold 1000) 1000 ⟨"rgb(255, 255, 255)", 600, 600⟩ = false :=
  ⟨processElements_originals,
   fun d total _ h1 h2 => isStructuralColor_iff d total h1 h2,
   white_scenario_excluded⟩

/-- C6 witness: white at 600 of 1000 elements with baseline score is
structural, and a concrete accumulated entry has a non-transparent
original. -/
theorem structuralColorWitness :
    isStructuralColor ⟨"rgb(255, 255, 255)", 600, 600⟩ 1000 = true ∧
    ((⟨"rgb(99, 91, 255)", 1, 25⟩ : ColorData).original ≠ "rgba(0, 0, 0, 0)" ∧
      (⟨"rgb(99, 91, 255)", 1, 25⟩ : ColorData).original ≠ "transparent") := by
  constructor
  · exact (structuralColorCharacterization.2.1 ⟨"rgb(255, 255, 255)", 600, 600⟩ 1000
      (by norm_num) (by decide) (by decide)).mpr (by constructor <;> norm_num)
  · exact structuralColorCharacterization.1 [scenarioButton] "#635bff"
      ⟨"rgb(99, 91, 255)", 1, 25⟩ (by decide)

/-- C7 counterexample: a page whose only signal is one Foundation grid-class
match yields a one-element Foundation evidence list, yet Foundation is
reported — a framework is reported with a single piece of evidence. -/
theorem foundationReportedWithSingleEvidence :
    (foundationEvidence foundationOnlyFacts).length = 1 ∧
    detectFrameworks foundationOnlyFacts = [⟨"Foundation", "high", "grid/button system"⟩] :=
  ⟨by decide, by decide⟩

/-- C7 (amended): Tailwind, Bootstrap and Bulma each require at least two
evidence items, but Foundation is reported already with one evidence item
(or a data-foundation attribute alone). -/
theorem frameworkEvidenceThresholds : ∀ f : PageFacts,
    (((detectFrameworks f).any (fun fw => fw.name == "Tailwind CSS")) = true ↔
      2 ≤ (tailwindEvidence f).length) ∧
    (((detectFrameworks f).any (fun fw => fw.name == "Bootstrap")) = true ↔
      2 ≤ (bootstrapEvidence f).length) ∧
    (((detectFrameworks f).any (fun fw => fw.name == "Bulma")) = true ↔
      2 ≤ (bulmaEvidence f).length) ∧
    (((detectFrameworks f).any (fun fw => fw.name == "Foundation")) = true ↔
      (1 ≤ (foundationEvidence f).length ∨ 0 < f.dataFoundationCount)) := by
  intro f
  refine ⟨?_, ?_, ?_, ?_⟩ <;>
    simp [detectFrameworks, List.any_append, any_ite_singleton]

/-- C8 counterexample: two links of the same colour, first decorated
`underline` and later `line-through` — the stored default keeps
`underline`, so the last specific value does not win. -/
theorem linkLastSpecificLosesDecoration :
    extractLinkStyles [⟨"rgb(0, 0, 255)", "underline", "400"⟩,
        ⟨"rgb(0, 0, 255)", "line-through", "400"⟩] =
      [⟨"rgb(0, 0, 255)", "underline", "400", "rgb(0, 0, 255)", "underline"⟩] ∧
    ("underline" : String) ≠ "line-through" :=
  ⟨by decide, by decide⟩

/-- C8 (amended): a later link with the same normalized colour upgrades the
stored default decoration only while that decoration is still empty or
`none`; once specific it never changes again (first-specific-wins), also
across any further sequence of links. -/
theorem linkDecorationFirstSpecificWins :
    (∀ (m : LinkMap) (l : LinkObs) (key : String) (ex : LinkRec),
      alistGet m key = some ex →
      ex.defaultTextDecoration ≠ "" → ex.defaultTextDecoration ≠ "none" →
      alistGet (processLink m l) key = some ex) ∧
    (∀ (m : LinkMap) (l : LinkObs) (ex : LinkRec),
      alistGet m (normalizeColor l.color) = some ex →
      (ex.defaultTextDecoration = "" ∨ ex.defaultTextDecoration = "none") →
      l.textDecoration ≠ "" → l.textDecoration ≠ "none" →
      alistGet (processLink m l) (normalizeColor l.color) =
        some {ex with defaultTextDecoration := l.textDecoration}) ∧
    (∀ (ls : List LinkObs) (m : LinkMap) (key : String) (ex : LinkRec),
      alistGet m key = some ex →
      ex.defaultTextDecoration ≠ "" → ex.defaultTextDecoration ≠ "none" →
      alistGet (ls.foldl processLink m) key = some ex) :=
  ⟨fun _ _ _ _ hget h1 h2 => processLink_keeps_specific hget h1 h2,
   fun _ _ _ hget h1 h2 h3 => processLink_upgrades hget h1 h2 h3,
   foldl_processLink_keeps_specific⟩

/-- C8 witness: a `none` default upgrades to `underline`, and an existing
`underline` survives a later `line-through` link. -/
theorem linkDecorationMergeWitness :
    alistGet (processLink [("#0000ff", ⟨"rgb(0, 0, 255)", "none", "400", "rgb(0, 0, 255)", "none"⟩)]
        ⟨"rgb(0, 0, 255)", "underline", "400"⟩)
        (normalizeColor (⟨"rgb(0, 0, 255)", "underline", "400"⟩ : LinkObs).color) =
      some ⟨"rgb(0, 0, 255)", "none", "400", "rgb(0, 0, 255)", "underline"⟩ ∧
    alistGet (processLink [("#ff0000", ⟨"rgb(255, 0, 0)", "underline", "400", "rgb(255, 0, 0)", "underline"⟩)]
        ⟨"rgb(255, 0, 0)", "line-through", "400"⟩) "#ff0000" =
      some ⟨"rgb(255, 0, 0)", "underline", "400", "rgb(255, 0, 0)", "underline"⟩ := by
  constructor
  · exact linkDecorationFirstSpecificWins.2.1
      [("#0000ff", ⟨"rgb(0, 0, 255)", "none", "400", "rgb(0, 0, 255)", "none"⟩)]
      ⟨"rgb(0, 0, 255)", "underline", "400"⟩
      ⟨"rgb(0, 0, 255)", "none", "400", "rgb(0, 0, 255)", "none"⟩
      (by decide) (Or.inr (by decide)) (by decide) (by decide)
  · exact linkDecorationFirstSpecificWins.1
      [("#ff0000", ⟨"rgb(255, 0, 0)", "underline", "400", "rgb(255, 0, 0)", "underline"⟩)]
      ⟨"rgb(255, 0, 0)", "line-through", "400"⟩ "#ff0000"
      ⟨"rgb(255, 0, 0)", "underline", "400", "rgb(255, 0, 0)", "underline"⟩
      (by decide) (by decide) (by decide)

/-- C9 counterexample: the hover merge compares the raw colour string, not
the normalized form — a probed `"#635bff"` is added even though normalized
`"#635bff"` is already present in the palette. -/
theorem hoverMergeAddsDespiteNormalizedMatch :
    mergeHoverFocus [⟨"rgb(99, 91, 255)", "#635bff", 15, "high"⟩] ["#635bff"] =
      [⟨"rgb(99, 91, 255)", "#635bff", 15, "high"⟩, ⟨"#635bff", "#635bff", 1, "medium"⟩] ∧
    List.map (fun e => e.normalized) [(⟨"rgb(99, 91, 255)", "#635bff", 15, "high"⟩ : PaletteEntry)] =
      ["#635bff"] ∧
    hoverNormalize "#635bff" = "#635bff" :=
  ⟨by decide, by decide, by decide⟩

/-- C9 (amended): hover/focus observations are merged as new entries only if
the raw probed colour string is not already some entry's `color` field; when
it is, no entry of that raw colour is ever added, and a genuinely new
nonempty colour is pushed with count 1 and confidence "medium". -/
theorem hoverMergeRawColorRule :
    (∀ (cs : List String) (p : List PaletteEntry) (c : String),
      p.any (fun e => e.color == c) = true →
      (mergeHoverFocus p cs).filter (fun e => e.color == c) =
        p.filter (fun e => e.color == c)) ∧
    (∀ (p : List PaletteEntry) (c : String),
      p.any (fun e => e.color == c) = false → c ≠ "" →
      mergeHoverFocus p [c] = p ++ [⟨c, hoverNormalize c, 1, "medium"⟩]) := by
  refine ⟨mergeHoverFocus_filter_raw, ?_⟩
  intro p c ha hc
  unfold mergeHoverFocus
  rw [List.foldl_cons, List.foldl_nil]
  rw [if_pos (by rw [ha] ; simp [bne_iff_ne, hc])]

/-- C9 witness: the amended theorem at a palette already holding the probed
raw colour, and at an empty palette receiving a new colour. -/
theorem hoverMergeWitness :
    (mergeHoverFocus [⟨"rgb(1, 2, 3)", "#010203", 4, "low"⟩] ["rgb(1, 2, 3)"]).filter
        (fun e => e.color == "rgb(1, 2, 3)") =
      ([⟨"rgb(1, 2, 3)", "#010203", 4, "low"⟩] : List PaletteEntry).filter
        (fun e => e.color == "rgb(1, 2, 3)") ∧
    mergeHoverFocus [] ["red"] = [] ++ [⟨"red", hoverNormalize "red", 1, "medium"⟩] :=
  ⟨hoverMergeRawColorRule.1 ["rgb(1, 2, 3)"] [⟨"rgb(1, 2, 3)", "#010203", 4, "low"⟩]
      "rgb(1, 2, 3)" (by decide),
   hoverMergeRawColorRule.2 [] "red" (by decide) (by decide)⟩

/-- C10: normalization of any `rgba(r, g, b, a)` literal renders only the
three colour channels — the result is independent of the alpha text — and
two colour strings with equal normalized form accumulate into one and the
same observation with summed count and score. -/
theorem normalizeDiscardsAlpha :
    (∀ (R G B A1 A2 : List Char),
      R ≠ [] → (∀ c ∈ R, c.isDigit = true) →
      G ≠ [] → (∀ c ∈ G, c.isDigit = true) →
      B ≠ [] → (∀ c ∈ B, c.isDigit = true) →
      normalizeColor (mkRgba R G B A1) =
        (⟨'#' :: (pad2 (natToHexChars (parseIntDec R)) ++ pad2 (natToHexChars (parseIntDec G)) ++
          pad2 (natToHexChars (parseIntDec B)))⟩ : String) ∧
      normalizeColor (mkRgba R G B A1) = normalizeColor (mkRgba R G B A2)) ∧
    (∀ (c1 c2 : String) (s1 s2 : Nat),
      c1 ≠ "rgba(0, 0, 0, 0)" → c1 ≠ "transparent" →
      c2 ≠ "rgba(0, 0, 0, 0)" → c2 ≠ "transparent" →
      normalizeColor c1 = normalizeColor c2 →
      addColor s2 (addColor s1 [] c1) c2 = [(normalizeColor c1, ⟨c1, 2, s1 + s2⟩)]) :=
  ⟨fun R G B A1 A2 hR hRd hG hGd hB hBd =>
    normalizeColor_mkRgba R G B A1 A2 hR hRd hG hGd hB hBd,
   addColor_merges_same_normalized⟩

/-- C10 witness: two alphas over the same channels normalize identically to
`"#0a141e"`, and two alpha-variants of `rgba(5, 6, 7, …)` accumulate into a
single observation of count 2. -/
theorem normalizeDiscardsAlphaWitness :
    (normalizeColor (mkRgba "10".data "20".data "30".data "0.5".data) = "#0a141e" ∧
     normalizeColor (mkRgba "10".data "20".data "30".data "0.5".data) =
       normalizeColor (mkRgba "10".data "20".data "30".data "1".data)) ∧
    addColor 2 (addColor 1 [] "rgba(5, 6, 7, 0.5)") "rgba(5, 6, 7, 0.25)" =
      [("#050607", ⟨"rgba(5, 6, 7, 0.5)", 2, 3⟩)] := by
  constructor
  · have h := normalizeDiscardsAlpha.1 "10".data "20".data "30".data "0.5".data "1".data
      (by decide) (by decide) (by decide) (by decide) (by decide) (by decide)
    exact ⟨h.1.trans (by decide), h.2⟩
  · have h := normalizeDiscardsAlpha.2 "rgba(5, 6, 7, 0.5)" "rgba(5, 6, 7, 0.25)" 1 2
      (by decide) (by decide) (by decide) (by decide) (by decide)
    exact h.trans (by decide)
